import Mathlib

set_option linter.unusedSectionVars false
set_option linter.unusedVariables false

/-!
Verification of the LRU cache engine of `lsst/cpputils`
(`include/lsst/cpputils/Cache.h`).

The C++ class `Cache<Key, Value, KeyHash, KeyPred>` keeps a
`boost::multi_index_container` with two synchronized views over the same
element set: a sequenced (recency) index, head = most recently used, and a
`hashed_unique` index by key.  We embed that state shallowly as the recency
sequence itself — a list of key/value pairs, head = most recent — together
with the capacity `_maxElements` (0 means unbounded).  The hash index is a
performance device only: semantically it is lookup-by-key in that sequence,
and `hashed_unique` guarantees keys are unique, so `List.find?` on the
sequence finds exactly the entry the hash index would.

C++ methods become pure functions from the cache state to a result paired
with the updated state; `const` methods are functions of the state alone.
Exceptions become `Except`; the generator passed to `operator()` is modelled
with an explicit effect state so that exception propagation and invocation
counts are observable.
-/

/-- State of `Cache<Key, Value>`: `_maxElements` (capacity, 0 = unbounded)
and the sequenced index `_container`, most recently used first. -/
structure Cache (Key Value : Type) where
  maxElements : Nat
  container : List (Key × Value)
  deriving Repr, DecidableEq

/-- The exception thrown by `operator[]`:
`LSST_EXCEPT(pex::exceptions::NotFoundError, "Unable to find key: %s" % key)`.
It identifies the missing key. -/
inductive NotFoundError (Key : Type) where
  | notFound (key : Key)
  deriving Repr, DecidableEq

namespace Cache

variable {Key Value : Type} [DecidableEq Key]

/-- The constructor `Cache(std::size_t maxElements=0)`: empty container. -/
def mkCache (maxElements : Nat := 0) : Cache Key Value :=
  { maxElements := maxElements, container := [] }

/-- `size()`: `return _container.size();` -/
def size (c : Cache Key Value) : Nat :=
  c.container.length

/-- `capacity()`: `return _maxElements;` -/
def capacity (c : Cache Key Value) : Nat :=
  c.maxElements

/-- One `pop_back` per step of the `while` loop of `_trim`
(`while (size() > capacity()) pop_back();`), driven by a fuel that the
caller sets to the container length, which bounds the number of
iterations the C++ loop can make. -/
def popBackWhileGt (fuel cap : Nat) (l : List (Key × Value)) : List (Key × Value) :=
  match fuel with
  | 0 => l
  | fuel + 1 => if cap < l.length then popBackWhileGt fuel cap l.dropLast else l

/-- `_trim()`: `if (capacity() == 0) return; while (size() > capacity()) pop_back();` -/
def trim (c : Cache Key Value) : Cache Key Value :=
  if c.maxElements = 0 then c
  else { c with container := popBackWhileGt c.container.length c.maxElements c.container }

/-- The hash index's match predicate for a looked-up key: an element
matches when its stored key equals `k` (`KeyPred`, instantiated with
decidable equality). -/
def keyIs (k : Key) : Key × Value → Bool := fun e => decide (e.1 = k)

/-- `_lookup(key)`: find the key through the hash index; if found, relocate
that element to the front of the sequenced index (promotion to most
recently used).  Returns the found value (the C++ returns the iterator and
a `bool`) together with the updated cache. -/
def lookupImpl (c : Cache Key Value) (k : Key) : Option Value × Cache Key Value :=
  match c.container.find? (keyIs k) with
  | some e =>
      (some e.2, { c with container := e :: c.container.eraseP (keyIs k) })
  | none => (none, c)

/-- `_addNew(key, value)`: `emplace_front(key, value); _trim();` -/
def addNew (c : Cache Key Value) (k : Key) (v : Value) : Cache Key Value :=
  trim { c with container := (k, v) :: c.container }

/-- `add(key, value)`: `auto result = _lookup(key); if (!result.second) _addNew(key, value);`
(`result.second` is the found flag, here `result.1.isSome`; on a hit
`_lookup` has already promoted, so nothing more happens). -/
def add (c : Cache Key Value) (k : Key) (v : Value) : Cache Key Value :=
  if (lookupImpl c k).1.isSome then (lookupImpl c k).2
  else addNew (lookupImpl c k).2 k v

/-- `operator[](key)`: `_lookup`, return the value on a hit, otherwise
throw `NotFoundError`. -/
def lookup (c : Cache Key Value) (k : Key) :
    Except (NotFoundError Key) Value × Cache Key Value :=
  match (lookupImpl c k).1 with
  | some v => (Except.ok v, (lookupImpl c k).2)
  | none => (Except.error (NotFoundError.notFound k), (lookupImpl c k).2)

/-- `get(key)`: `_lookup`, wrap the hit in `std::optional`, empty on a miss
(the wrapper is the identity here: `_lookup`'s first component already is
that optional). -/
def get (c : Cache Key Value) (k : Key) : Option Value × Cache Key Value :=
  lookupImpl c k

/-- `contains(key)`: `return _lookup(key).second;` (promotes on a hit). -/
def contains (c : Cache Key Value) (k : Key) : Bool × Cache Key Value :=
  ((lookupImpl c k).1.isSome, (lookupImpl c k).2)

/-- `operator()(key, func)` with the generator's effects made explicit: the
generator takes an effect state `s : σ` and either returns a value (a
normal C++ return) or an error `ε` (a thrown exception, propagated
unchanged).  `auto result = _lookup(key); if (result.second) return ...;
Value value = func(key); _addNew(key, value); return value;` -/
def getOrCompute {σ ε : Type} (c : Cache Key Value) (k : Key)
    (func : Key → σ → Except ε Value × σ) (s : σ) :
    Except ε Value × Cache Key Value × σ :=
  match (lookupImpl c k).1 with
  | some v => (Except.ok v, (lookupImpl c k).2, s)
  | none =>
      match func k s with
      | (Except.ok v, s') => (Except.ok v, addNew (lookupImpl c k).2 k v, s')
      | (Except.error e, s') => (Except.error e, (lookupImpl c k).2, s')

/-- `operator()(key, func)` specialised to an effect-free, non-throwing
generator (the common C++ use). -/
def getOrComputePure (c : Cache Key Value) (k : Key) (func : Key → Value) :
    Value × Cache Key Value :=
  match (lookupImpl c k).1 with
  | some v => (v, (lookupImpl c k).2)
  | none => (func k, addNew (lookupImpl c k).2 k (func k))

/-- `keys()`: iterate the sequenced index front to back, `push_back` each
key (`const` method: a function of the state only). -/
def keys (c : Cache Key Value) : List Key :=
  c.container.foldl (fun acc e => acc ++ [e.1]) []

/-- `reserve(maxElements)`: `_maxElements = maxElements; _trim();` -/
def reserve (c : Cache Key Value) (maxElements : Nat) : Cache Key Value :=
  trim { c with maxElements := maxElements }

/-- `flush()`: `while (size() > 0) pop_back();` — the same loop as `_trim`
with bound 0, and again the container length bounds the iterations. -/
def flush (c : Cache Key Value) : Cache Key Value :=
  { c with container := popBackWhileGt c.container.length 0 c.container }

/-- The value currently stored for a key, with no promotion: a pure
observation of the state used to phrase the theorems (it is what
`_container.get<Hash>().find(key)->second` would read). -/
def findValue (c : Cache Key Value) (k : Key) : Option Value :=
  (c.container.find? (keyIs k)).map Prod.snd

/-- Membership observation: the key is in the cache. -/
def present (c : Cache Key Value) (k : Key) : Prop :=
  findValue c k ≠ none

instance (c : Cache Key Value) (k : Key) : Decidable (present c k) :=
  match h : findValue c k with
  | some _ => isTrue (by simp [present, h])
  | none => isFalse (by simp [present, h])

/-- One mutating API call of the kind claim C1 quantifies over: `add` or
`operator()` (get-or-compute) with a non-throwing generator. -/
inductive CacheOp (Key Value : Type) where
  | add (k : Key) (v : Value)
  | getOrCompute (k : Key) (func : Key → Value)

/-- Effect of one API call on the cache state. -/
def applyOp (c : Cache Key Value) : CacheOp Key Value → Cache Key Value
  | CacheOp.add k v => add c k v
  | CacheOp.getOrCompute k f => (getOrComputePure c k f).2

/-- State after a sequence of API calls. -/
def execOps (c : Cache Key Value) (ops : List (CacheOp Key Value)) : Cache Key Value :=
  ops.foldl applyOp c

/-- A sequence of `add` calls, one per key, values given by `f`. -/
def addAll (c : Cache Key Value) (f : Key → Value) (ks : List Key) : Cache Key Value :=
  ks.foldl (fun c k => add c k (f k)) c

/-- A generator wrapping the pure function `f` with an invocation counter
as its observable side effect; it never throws (`ε := Empty`). -/
def countGen (f : Key → Value) : Key → Nat → Except Empty Value × Nat :=
  fun k n => (Except.ok (f k), n + 1)

/-! ### Helper lemmas -/

theorem popBackWhileGt_eq_take (fuel cap : Nat) (l : List (Key × Value))
    (h : l.length ≤ fuel + cap) : popBackWhileGt fuel cap l = l.take cap := by
  induction fuel generalizing l with
  | zero =>
      simp only [popBackWhileGt]
      exact (List.take_of_length_le (by omega)).symm
  | succ fuel ih =>
      simp only [popBackWhileGt]
      split
      · rename_i hlt
        rw [ih _ (by simp [List.length_dropLast]; omega)]
        rw [List.dropLast_eq_take, List.take_take]
        congr 1
        omega
      · rename_i hge
        exact (List.take_of_length_le (by omega)).symm

theorem trim_maxElements (c : Cache Key Value) : (trim c).maxElements = c.maxElements := by
  unfold trim
  split <;> rfl

theorem trim_container (c : Cache Key Value) :
    (trim c).container =
      if c.maxElements = 0 then c.container else c.container.take c.maxElements := by
  unfold trim
  split
  · simp [*]
  · rename_i h
    simp only [if_neg h]
    exact popBackWhileGt_eq_take _ _ _ (by omega)

theorem foldl_push_keys (l : List (Key × Value)) (acc : List Key) :
    l.foldl (fun a e => a ++ [e.1]) acc = acc ++ l.map Prod.fst := by
  induction l generalizing acc with
  | nil => simp
  | cons e l ih => simp [ih]

theorem keys_eq_map (c : Cache Key Value) : keys c = c.container.map Prod.fst := by
  unfold keys
  rw [foldl_push_keys]
  simp

@[simp] theorem keyIs_iff (k : Key) (e : Key × Value) : keyIs k e = true ↔ e.1 = k := by
  simp [keyIs]

theorem findValue_eq_none_iff (c : Cache Key Value) (k : Key) :
    findValue c k = none ↔ k ∉ keys c := by
  rw [keys_eq_map]
  unfold findValue
  rw [Option.map_eq_none']
  rw [List.find?_eq_none]
  simp only [keyIs_iff, List.mem_map]
  constructor
  · rintro h ⟨e, he, rfl⟩
    exact h e he rfl
  · intro h e he hk
    exact h ⟨e, he, hk⟩

theorem lookupImpl_fst (c : Cache Key Value) (k : Key) :
    (lookupImpl c k).1 = findValue c k := by
  unfold lookupImpl findValue
  cases h : c.container.find? (keyIs k) <;> simp [h]

theorem lookupImpl_of_none (c : Cache Key Value) (k : Key)
    (h : findValue c k = none) : lookupImpl c k = (none, c) := by
  unfold findValue at h
  rw [Option.map_eq_none'] at h
  unfold lookupImpl
  rw [h]

theorem lookupImpl_snd_container_of_some (c : Cache Key Value) (k : Key) (e : Key × Value)
    (h : c.container.find? (keyIs k) = some e) :
    (lookupImpl c k).2.container = e :: c.container.eraseP (keyIs k) := by
  unfold lookupImpl
  rw [h]

theorem lookupImpl_snd_maxElements (c : Cache Key Value) (k : Key) :
    (lookupImpl c k).2.maxElements = c.maxElements := by
  unfold lookupImpl
  cases h : c.container.find? (keyIs k) <;> simp

theorem lookupImpl_snd_size (c : Cache Key Value) (k : Key) :
    size (lookupImpl c k).2 = size c := by
  unfold lookupImpl size
  cases h : c.container.find? (keyIs k) with
  | none => simp
  | some e =>
      simp only [List.length_cons]
      have he : e ∈ c.container := List.mem_of_find?_eq_some h
      have hp := List.find?_some h
      have := List.length_eraseP_add_one he hp
      omega

theorem findValue_lookupImpl_snd (c : Cache Key Value) (k : Key) (v : Value)
    (h : findValue c k = some v) : findValue (lookupImpl c k).2 k = some v := by
  unfold findValue at h
  rw [Option.map_eq_some'] at h
  obtain ⟨e, he, hv⟩ := h
  have hp := List.find?_some he
  unfold findValue
  rw [lookupImpl_snd_container_of_some c k e he]
  rw [List.find?_cons_of_pos _ hp]
  simp [hv]

theorem keys_lookupImpl_snd_head (c : Cache Key Value) (k : Key) (v : Value)
    (h : findValue c k = some v) : (keys (lookupImpl c k).2).head? = some k := by
  unfold findValue at h
  rw [Option.map_eq_some'] at h
  obtain ⟨e, he, hv⟩ := h
  have hp : e.1 = k := by
    have hq := List.find?_some he
    exact (keyIs_iff k e).mp hq
  rw [keys_eq_map, lookupImpl_snd_container_of_some c k e he]
  simp [hp]

theorem lookupImpl_idem (c : Cache Key Value) (k : Key) :
    lookupImpl (lookupImpl c k).2 k = lookupImpl c k := by
  unfold lookupImpl
  cases h : c.container.find? (keyIs k) with
  | none => simp [h]
  | some e =>
      have hp := List.find?_some h
      simp only
      rw [List.find?_cons_of_pos _ hp, List.eraseP_cons_of_pos hp]

theorem lookupImpl_head_noop (c : Cache Key Value) (k : Key)
    (h : (keys c).head? = some k) : (lookupImpl c k).2 = c := by
  rw [keys_eq_map] at h
  unfold lookupImpl
  cases hc : c.container with
  | nil => simp [hc] at h
  | cons e l =>
      rw [hc] at h
      simp only [List.map_cons, List.head?_cons, Option.some.injEq] at h
      have hp : keyIs k e = true := by simp [keyIs, h]
      rw [List.find?_cons_of_pos _ hp, List.eraseP_cons_of_pos hp]
      simp only
      rw [← hc]

theorem addNew_maxElements (c : Cache Key Value) (k : Key) (v : Value) :
    (addNew c k v).maxElements = c.maxElements := by
  unfold addNew
  rw [trim_maxElements]

theorem addNew_container (c : Cache Key Value) (k : Key) (v : Value) :
    (addNew c k v).container =
      (k, v) :: (if c.maxElements = 0 then c.container
                 else c.container.take (c.maxElements - 1)) := by
  unfold addNew
  rw [trim_container]
  cases hm : c.maxElements with
  | zero => simp
  | succ m => simp [List.take_succ_cons]

theorem addNew_container_of_zero (c : Cache Key Value) (k : Key) (v : Value)
    (h : c.maxElements = 0) : (addNew c k v).container = (k, v) :: c.container := by
  rw [addNew_container]
  simp [h]

theorem findValue_addNew_self (c : Cache Key Value) (k : Key) (v : Value) :
    findValue (addNew c k v) k = some v := by
  unfold findValue
  rw [addNew_container]
  have hp : keyIs k ((k, v) : Key × Value) = true := by simp [keyIs]
  rw [List.find?_cons_of_pos _ hp]
  rfl

theorem findValue_addNew_of_ne (c : Cache Key Value) (k k' : Key) (v : Value)
    (hcap : c.maxElements = 0) (hne : k' ≠ k) :
    findValue (addNew c k v) k' = findValue c k' := by
  unfold findValue
  rw [addNew_container]
  simp only [if_pos hcap]
  have hp : ¬ (keyIs k' ((k, v) : Key × Value) = true) := by
    simp only [keyIs_iff]
    exact fun h => hne h.symm
  rw [List.find?_cons_of_neg _ hp]

theorem keys_addNew_head (c : Cache Key Value) (k : Key) (v : Value) :
    (keys (addNew c k v)).head? = some k := by
  rw [keys_eq_map, addNew_container]
  simp

theorem size_addNew_le (c : Cache Key Value) (k : Key) (v : Value)
    (h : c.maxElements ≠ 0) : size (addNew c k v) ≤ c.maxElements := by
  unfold size
  rw [addNew_container]
  simp only [if_neg h, List.length_cons, List.length_take]
  omega

theorem add_of_some (c : Cache Key Value) (k : Key) (v v0 : Value)
    (h : findValue c k = some v0) : add c k v = (lookupImpl c k).2 := by
  unfold add
  rw [lookupImpl_fst, h]
  rfl

theorem add_of_none (c : Cache Key Value) (k : Key) (v : Value)
    (h : findValue c k = none) : add c k v = addNew c k v := by
  unfold add
  rw [lookupImpl_fst, h]
  simp only [Option.isSome_none, Bool.false_eq_true, if_false]
  rw [lookupImpl_of_none c k h]

theorem add_maxElements (c : Cache Key Value) (k : Key) (v : Value) :
    (add c k v).maxElements = c.maxElements := by
  unfold add
  split
  · exact lookupImpl_snd_maxElements c k
  · rw [addNew_maxElements, lookupImpl_snd_maxElements]

theorem size_add_le (c : Cache Key Value) (k : Key) (v : Value)
    (h0 : c.maxElements ≠ 0) (hs : size c ≤ c.maxElements) :
    size (add c k v) ≤ c.maxElements := by
  unfold add
  split
  · rw [lookupImpl_snd_size]
    exact hs
  · have h0' : (lookupImpl c k).2.maxElements ≠ 0 := by
      rw [lookupImpl_snd_maxElements]
      exact h0
    have := size_addNew_le (lookupImpl c k).2 k v h0'
    rw [lookupImpl_snd_maxElements] at this
    exact this

theorem getOrComputePure_of_some (c : Cache Key Value) (k : Key) (f : Key → Value)
    (v : Value) (h : findValue c k = some v) :
    getOrComputePure c k f = (v, (lookupImpl c k).2) := by
  unfold getOrComputePure
  rw [lookupImpl_fst, h]

theorem getOrComputePure_of_none (c : Cache Key Value) (k : Key) (f : Key → Value)
    (h : findValue c k = none) :
    getOrComputePure c k f = (f k, addNew c k (f k)) := by
  unfold getOrComputePure
  rw [lookupImpl_fst, h]
  simp only
  rw [lookupImpl_of_none c k h]

theorem getOrComputePure_snd_maxElements (c : Cache Key Value) (k : Key) (f : Key → Value) :
    (getOrComputePure c k f).2.maxElements = c.maxElements := by
  unfold getOrComputePure
  cases h : (lookupImpl c k).1 with
  | some v => simp [lookupImpl_snd_maxElements]
  | none => simp [addNew_maxElements, lookupImpl_snd_maxElements]

theorem size_getOrComputePure_le (c : Cache Key Value) (k : Key) (f : Key → Value)
    (h0 : c.maxElements ≠ 0) (hs : size c ≤ c.maxElements) :
    size (getOrComputePure c k f).2 ≤ c.maxElements := by
  unfold getOrComputePure
  cases h : (lookupImpl c k).1 with
  | some v =>
      simp only
      rw [lookupImpl_snd_size]
      exact hs
  | none =>
      simp only
      have h0' : (lookupImpl c k).2.maxElements ≠ 0 := by
        rw [lookupImpl_snd_maxElements]
        exact h0
      have := size_addNew_le (lookupImpl c k).2 k (f k) h0'
      rw [lookupImpl_snd_maxElements] at this
      exact this

theorem lookup_snd (c : Cache Key Value) (k : Key) :
    (lookup c k).2 = (lookupImpl c k).2 := by
  unfold lookup
  cases h : (lookupImpl c k).1 <;> simp

theorem lookup_of_none (c : Cache Key Value) (k : Key) (h : findValue c k = none) :
    lookup c k = (Except.error (NotFoundError.notFound k), c) := by
  unfold lookup
  rw [lookupImpl_fst, h]
  simp only
  rw [lookupImpl_of_none c k h]

theorem lookup_of_some (c : Cache Key Value) (k : Key) (v : Value)
    (h : findValue c k = some v) :
    lookup c k = (Except.ok v, (lookupImpl c k).2) := by
  unfold lookup
  rw [lookupImpl_fst, h]

theorem flush_container (c : Cache Key Value) : (flush c).container = [] := by
  unfold flush
  rw [popBackWhileGt_eq_take _ _ _ (by omega)]
  simp

theorem applyOp_maxElements (c : Cache Key Value) (op : CacheOp Key Value) :
    (applyOp c op).maxElements = c.maxElements := by
  cases op with
  | add k v => exact add_maxElements c k v
  | getOrCompute k f => exact getOrComputePure_snd_maxElements c k f

theorem size_applyOp_le (c : Cache Key Value) (op : CacheOp Key Value)
    (h0 : c.maxElements ≠ 0) (hs : size c ≤ c.maxElements) :
    size (applyOp c op) ≤ c.maxElements := by
  cases op with
  | add k v => exact size_add_le c k v h0 hs
  | getOrCompute k f => exact size_getOrComputePure_le c k f h0 hs

theorem execOps_maxElements (ops : List (CacheOp Key Value)) (c : Cache Key Value) :
    (execOps c ops).maxElements = c.maxElements := by
  induction ops generalizing c with
  | nil => rfl
  | cons op ops ih =>
      unfold execOps at *
      simp only [List.foldl_cons]
      rw [ih, applyOp_maxElements]

theorem size_execOps_le (ops : List (CacheOp Key Value)) (c : Cache Key Value)
    (h0 : c.maxElements ≠ 0) (hs : size c ≤ c.maxElements) :
    size (execOps c ops) ≤ c.maxElements := by
  induction ops generalizing c with
  | nil => exact hs
  | cons op ops ih =>
      unfold execOps at *
      simp only [List.foldl_cons]
      have h0' : (applyOp c op).maxElements ≠ 0 := by
        rw [applyOp_maxElements]
        exact h0
      have hs' : size (applyOp c op) ≤ (applyOp c op).maxElements := by
        rw [applyOp_maxElements]
        exact size_applyOp_le c op h0 hs
      have := ih (applyOp c op) h0' hs'
      rw [applyOp_maxElements] at this
      exact this

theorem addAll_maxElements (ks : List Key) (c : Cache Key Value) (f : Key → Value) :
    (addAll c f ks).maxElements = c.maxElements := by
  induction ks generalizing c with
  | nil => rfl
  | cons k ks ih =>
      unfold addAll at *
      simp only [List.foldl_cons]
      rw [ih, add_maxElements]

theorem size_addAll (ks : List Key) (c : Cache Key Value) (f : Key → Value)
    (hcap : c.maxElements = 0) (hnd : ks.Nodup)
    (hfresh : ∀ k ∈ ks, findValue c k = none) :
    size (addAll c f ks) = size c + ks.length := by
  induction ks generalizing c with
  | nil => simp [addAll]
  | cons k ks ih =>
      unfold addAll at *
      simp only [List.foldl_cons]
      have hk : findValue c k = none := hfresh k (by simp)
      rw [add_of_none c k (f k) hk]
      have hmax : (addNew c k (f k)).maxElements = 0 := by
        rw [addNew_maxElements]
        exact hcap
      have hkn : k ∉ ks := (List.nodup_cons.mp hnd).1
      have hnd' : ks.Nodup := (List.nodup_cons.mp hnd).2
      have hfresh' : ∀ k' ∈ ks, findValue (addNew c k (f k)) k' = none := by
        intro k' hk'
        rw [findValue_addNew_of_ne c k k' (f k) hcap (by rintro rfl; exact hkn hk')]
        exact hfresh k' (by simp [hk'])
      have hrec := ih (addNew c k (f k)) hmax hnd' hfresh'
      rw [hrec]
      have hsz : size (addNew c k (f k)) = size c + 1 := by
        unfold size
        rw [addNew_container_of_zero c k (f k) hcap]
        rfl
      rw [hsz]
      simp only [List.length_cons]
      omega

end Cache

/-!
### Claim theorems
-/

/-- Claim C3: any access promotes to head and eviction removes the tail.
Inserting keys 0, 1, 2 (in that order) into a capacity-2 cache leaves
`size = 2` and `keys = [2, 1]` (0 evicted as least recently used); and
after inserting 0, 1 (order `[1, 0]`), a strict lookup of 0 promotes it
(order `[0, 1]`), so a subsequent insert of 2 evicts the tail 1, leaving
`keys = [2, 0]`. -/
theorem c3_lru_order_and_promotion :
    Cache.size (Cache.add (Cache.add (Cache.add (Cache.mkCache 2 : Cache Nat Nat) 0 10) 1 11) 2 12) = 2
  ∧ Cache.keys (Cache.add (Cache.add (Cache.add (Cache.mkCache 2 : Cache Nat Nat) 0 10) 1 11) 2 12) = [2, 1]
  ∧ Cache.keys (Cache.add (Cache.add (Cache.mkCache 2 : Cache Nat Nat) 0 10) 1 11) = [1, 0]
  ∧ Cache.keys (Cache.lookup (Cache.add (Cache.add (Cache.mkCache 2 : Cache Nat Nat) 0 10) 1 11) 0).2 = [0, 1]
  ∧ Cache.keys (Cache.add (Cache.lookup (Cache.add (Cache.add (Cache.mkCache 2 : Cache Nat Nat) 0 10) 1 11) 0).2 2 12) = [2, 0] := by
  decide

/-- Claim C7: `flush` removes all entries while leaving the capacity
unchanged: afterwards `size = 0`, and a subsequent strict lookup of any
key (in particular any previously present one) fails with `NotFound`. -/
theorem c7_flush_clears_all {Key Value : Type} [DecidableEq Key]
    (c : Cache Key Value) (k : Key) :
    Cache.size (Cache.flush c) = 0
  ∧ Cache.capacity (Cache.flush c) = Cache.capacity c
  ∧ (Cache.lookup (Cache.flush c) k).1 = Except.error (NotFoundError.notFound k) := by
  have hcont := Cache.flush_container c
  refine ⟨?_, ?_, ?_⟩
  · unfold Cache.size
    rw [hcont]
    rfl
  · rfl
  · have hnone : Cache.findValue (Cache.flush c) k = none := by
      unfold Cache.findValue
      rw [hcont]
      rfl
    rw [Cache.lookup_of_none _ k hnone]

/-- Claim C8: `keys` is a snapshot of all cached keys, most recently used
first, and does not mutate the cache.  `keys` is a `const` method: in the
embedding it is a pure function of the state, so calling it cannot change
the entry set, the recency order, `size`, or `capacity`.  We prove the
snapshot is exactly the key column of the recency sequence (head = most
recent) and has length `size`. -/
theorem c8_keys_snapshot {Key Value : Type} [DecidableEq Key] (c : Cache Key Value) :
    (Cache.keys c).length = Cache.size c
  ∧ Cache.keys c = c.container.map Prod.fst := by
  refine ⟨?_, Cache.keys_eq_map c⟩
  rw [Cache.keys_eq_map]
  simp [Cache.size]

/-- Claim C4: `add` on a present key promotes the existing entry to the
head, discards the provided value (first-value-wins) and leaves `size`
unchanged; on an absent key it inserts a new entry at the head and trims
(`addNew`).  Consequently `add k v1` then `add k v2` on a fresh key leaves
the stored value for `k` equal to `v1` and the second `add` does not change
`size`.  (`c`/`k` is the present-key scenario with stored value `v0`;
`cf`/`kf` is the fresh-key scenario.) -/
theorem c4_add_first_value_wins {Key Value : Type} [DecidableEq Key]
    (c : Cache Key Value) (k : Key) (v v0 : Value)
    (cf : Cache Key Value) (kf : Key) (vf v1 v2 : Value)
    (hpres : Cache.findValue c k = some v0)
    (hfresh : Cache.findValue cf kf = none) :
    Cache.add c k v = (Cache.lookupImpl c k).2
  ∧ Cache.findValue (Cache.add c k v) k = some v0
  ∧ Cache.size (Cache.add c k v) = Cache.size c
  ∧ (Cache.keys (Cache.add c k v)).head? = some k
  ∧ Cache.add cf kf vf = Cache.addNew cf kf vf
  ∧ Cache.findValue (Cache.add (Cache.add cf kf v1) kf v2) kf = some v1
  ∧ Cache.size (Cache.add (Cache.add cf kf v1) kf v2) = Cache.size (Cache.add cf kf v1) := by
  have hadd : Cache.add c k v = (Cache.lookupImpl c k).2 :=
    Cache.add_of_some c k v v0 hpres
  have hfst : Cache.add cf kf v1 = Cache.addNew cf kf v1 :=
    Cache.add_of_none cf kf v1 hfresh
  have hval1 : Cache.findValue (Cache.add cf kf v1) kf = some v1 := by
    rw [hfst]
    exact Cache.findValue_addNew_self cf kf v1
  refine ⟨hadd, ?_, ?_, ?_, Cache.add_of_none cf kf vf hfresh, ?_, ?_⟩
  · rw [hadd]
    exact Cache.findValue_lookupImpl_snd c k v0 hpres
  · rw [hadd]
    exact Cache.lookupImpl_snd_size c k
  · rw [hadd]
    exact Cache.keys_lookupImpl_snd_head c k v0 hpres
  · rw [Cache.add_of_some _ kf v2 v1 hval1]
    exact Cache.findValue_lookupImpl_snd _ kf v1 hval1
  · rw [Cache.add_of_some _ kf v2 v1 hval1]
    exact Cache.lookupImpl_snd_size _ kf

/-- Witness for C4 at concrete inputs: capacity-2 cache holding key 1
(value 7) for the present-key scenario, and an empty capacity-2 cache with
fresh key 3 for the first-value-wins scenario. -/
theorem c4_add_first_value_wins_witness :
    Cache.add (⟨2, [(1, 7)]⟩ : Cache Nat Nat) 1 9 = (Cache.lookupImpl (⟨2, [(1, 7)]⟩ : Cache Nat Nat) 1).2
  ∧ Cache.findValue (Cache.add (⟨2, [(1, 7)]⟩ : Cache Nat Nat) 1 9) 1 = some 7
  ∧ Cache.size (Cache.add (⟨2, [(1, 7)]⟩ : Cache Nat Nat) 1 9) = Cache.size (⟨2, [(1, 7)]⟩ : Cache Nat Nat)
  ∧ (Cache.keys (Cache.add (⟨2, [(1, 7)]⟩ : Cache Nat Nat) 1 9)).head? = some 1
  ∧ Cache.add (Cache.mkCache 2 : Cache Nat Nat) 3 20 = Cache.addNew (Cache.mkCache 2) 3 20
  ∧ Cache.findValue (Cache.add (Cache.add (Cache.mkCache 2 : Cache Nat Nat) 3 21) 3 22) 3 = some 21
  ∧ Cache.size (Cache.add (Cache.add (Cache.mkCache 2 : Cache Nat Nat) 3 21) 3 22)
      = Cache.size (Cache.add (Cache.mkCache 2 : Cache Nat Nat) 3 21) :=
  c4_add_first_value_wins (⟨2, [(1, 7)]⟩ : Cache Nat Nat) 1 9 7
    (Cache.mkCache 2) 3 20 21 22 (by decide) (by decide)

/-- Claim C5: `NotFound` is raised by the strict lookup (`operator[]`)
exactly when the key is absent; on a present key it promotes and returns
the cached value.  `get` (tryGet) and `contains` never raise: their return
types carry no exception, and they answer `none` / `false` exactly on the
absent keys (`getOrCompute`'s only failure channel is likewise the
generator's own `ε`, not `NotFoundError`). -/
theorem c5_notfound_iff_absent {Key Value : Type} [DecidableEq Key]
    (c : Cache Key Value) (k : Key)
    (cp : Cache Key Value) (kp : Key) (vp : Value)
    (hp : Cache.findValue cp kp = some vp) :
    ((Cache.lookup c k).1 = Except.error (NotFoundError.notFound k) ↔ Cache.findValue c k = none)
  ∧ Cache.lookup cp kp = (Except.ok vp, (Cache.lookupImpl cp kp).2)
  ∧ (Cache.keys (Cache.lookup cp kp).2).head? = some kp
  ∧ ((Cache.get c k).1 = none ↔ Cache.findValue c k = none)
  ∧ ((Cache.contains c k).1 = false ↔ Cache.findValue c k = none) := by
  refine ⟨?_, Cache.lookup_of_some cp kp vp hp, ?_, ?_, ?_⟩
  · cases h : Cache.findValue c k with
    | some v => rw [Cache.lookup_of_some c k v h]; simp
    | none => rw [Cache.lookup_of_none c k h]; simp
  · rw [Cache.lookup_snd]
    exact Cache.keys_lookupImpl_snd_head cp kp vp hp
  · show (Cache.lookupImpl c k).1 = none ↔ Cache.findValue c k = none
    rw [Cache.lookupImpl_fst]
  · show ((Cache.lookupImpl c k).1.isSome, (Cache.lookupImpl c k).2).1 = false
        ↔ Cache.findValue c k = none
    rw [Cache.lookupImpl_fst]
    cases h : Cache.findValue c k <;> simp

/-- Witness for C5 at concrete inputs: an absent key 9 on a one-entry cache
and the present key 1 on the same cache. -/
theorem c5_notfound_iff_absent_witness :
    ((Cache.lookup (⟨2, [(1, 7)]⟩ : Cache Nat Nat) 9).1
      = Except.error (NotFoundError.notFound 9) ↔ Cache.findValue (⟨2, [(1, 7)]⟩ : Cache Nat Nat) 9 = none)
  ∧ Cache.lookup (⟨2, [(1, 7)]⟩ : Cache Nat Nat) 1
      = (Except.ok 7, (Cache.lookupImpl (⟨2, [(1, 7)]⟩ : Cache Nat Nat) 1).2)
  ∧ (Cache.keys (Cache.lookup (⟨2, [(1, 7)]⟩ : Cache Nat Nat) 1).2).head? = some 1
  ∧ ((Cache.get (⟨2, [(1, 7)]⟩ : Cache Nat Nat) 9).1 = none
      ↔ Cache.findValue (⟨2, [(1, 7)]⟩ : Cache Nat Nat) 9 = none)
  ∧ ((Cache.contains (⟨2, [(1, 7)]⟩ : Cache Nat Nat) 9).1 = false
      ↔ Cache.findValue (⟨2, [(1, 7)]⟩ : Cache Nat Nat) 9 = none) :=
  c5_notfound_iff_absent (⟨2, [(1, 7)]⟩ : Cache Nat Nat) 9
    (⟨2, [(1, 7)]⟩ : Cache Nat Nat) 1 7 (by decide)

/-- Claim C6: `reserve n` sets the capacity to `n`, then evicts from the
tail until `size ≤ n` — the surviving keys are the first `n` of the
recency order — and evicts nothing when `n = 0`; concretely, with entries
`[0, 1, 2, 3]` most-recent-first at capacity 4, `reserve 2` leaves
`keys = [0, 1]`. -/
theorem c6_reserve_shrinks_to_capacity {Key Value : Type} [DecidableEq Key]
    (c : Cache Key Value) (n : Nat) (c0 : Cache Key Value)
    (hn : 0 < n) :
    Cache.capacity (Cache.reserve c n) = n
  ∧ Cache.keys (Cache.reserve c n) = (Cache.keys c).take n
  ∧ Cache.size (Cache.reserve c n) ≤ n
  ∧ Cache.reserve c0 0 = { c0 with maxElements := 0 }
  ∧ Cache.capacity (Cache.reserve c0 0) = 0
  ∧ Cache.keys (Cache.reserve c0 0) = Cache.keys c0
  ∧ Cache.keys (Cache.reserve (⟨4, [(0, 10), (1, 11), (2, 12), (3, 13)]⟩ : Cache Nat Nat) 2) = [0, 1] := by
  have hne : n ≠ 0 := Nat.pos_iff_ne_zero.mp hn
  have hzero : Cache.reserve c0 0 = { c0 with maxElements := 0 } := by
    unfold Cache.reserve Cache.trim
    simp
  have hcont : (Cache.reserve c n).container = c.container.take n := by
    unfold Cache.reserve
    rw [Cache.trim_container]
    simp [hne]
  refine ⟨?_, ?_, ?_, hzero, ?_, ?_, by decide⟩
  · show (Cache.reserve c n).maxElements = n
    unfold Cache.reserve
    rw [Cache.trim_maxElements]
  · rw [Cache.keys_eq_map, Cache.keys_eq_map, hcont, List.map_take]
  · show (Cache.reserve c n).size ≤ n
    unfold Cache.size
    rw [hcont]
    simp [List.length_take]
  · show (Cache.reserve c0 0).maxElements = 0
    rw [hzero]
  · rw [hzero, Cache.keys_eq_map, Cache.keys_eq_map]

/-- Witness for C6 at concrete inputs: shrink a 3-entry capacity-3 cache to
capacity 2, and apply the no-op case to a 1-entry cache. -/
theorem c6_reserve_shrinks_to_capacity_witness :
    Cache.capacity (Cache.reserve (⟨3, [(5, 0), (6, 0), (7, 0)]⟩ : Cache Nat Nat) 2) = 2
  ∧ Cache.keys (Cache.reserve (⟨3, [(5, 0), (6, 0), (7, 0)]⟩ : Cache Nat Nat) 2)
      = (Cache.keys (⟨3, [(5, 0), (6, 0), (7, 0)]⟩ : Cache Nat Nat)).take 2
  ∧ Cache.size (Cache.reserve (⟨3, [(5, 0), (6, 0), (7, 0)]⟩ : Cache Nat Nat) 2) ≤ 2
  ∧ Cache.reserve (⟨1, [(8, 1)]⟩ : Cache Nat Nat) 0 = { (⟨1, [(8, 1)]⟩ : Cache Nat Nat) with maxElements := 0 }
  ∧ Cache.capacity (Cache.reserve (⟨1, [(8, 1)]⟩ : Cache Nat Nat) 0) = 0
  ∧ Cache.keys (Cache.reserve (⟨1, [(8, 1)]⟩ : Cache Nat Nat) 0) = Cache.keys (⟨1, [(8, 1)]⟩ : Cache Nat Nat)
  ∧ Cache.keys (Cache.reserve (⟨4, [(0, 10), (1, 11), (2, 12), (3, 13)]⟩ : Cache Nat Nat) 2) = [0, 1] :=
  c6_reserve_shrinks_to_capacity (⟨3, [(5, 0), (6, 0), (7, 0)]⟩ : Cache Nat Nat) 2
    (⟨1, [(8, 1)]⟩ : Cache Nat Nat) (by decide)

/-- Claim C9: a newly inserted entry is never evicted by the trim its own
insertion triggers: for any cache of capacity at least 1 and a previously
absent key `k`, immediately after `add k v` (or a get-or-compute miss on
`k`) the key is present and is the first element of `keys` — the trim
removes only from the tail, so even at capacity 1 the fresh head entry
survives. -/
theorem c9_fresh_entry_survives_trim {Key Value : Type} [DecidableEq Key]
    (c : Cache Key Value) (k : Key) (v : Value) (f : Key → Value)
    (hcap : 1 ≤ Cache.capacity c) (habs : Cache.findValue c k = none) :
    (Cache.keys (Cache.add c k v)).head? = some k
  ∧ Cache.present (Cache.add c k v) k
  ∧ Cache.findValue (Cache.add c k v) k = some v
  ∧ (Cache.keys (Cache.getOrComputePure c k f).2).head? = some k
  ∧ Cache.present (Cache.getOrComputePure c k f).2 k := by
  have hadd : Cache.add c k v = Cache.addNew c k v := Cache.add_of_none c k v habs
  have hgoc : Cache.getOrComputePure c k f = (f k, Cache.addNew c k (f k)) :=
    Cache.getOrComputePure_of_none c k f habs
  refine ⟨?_, ?_, ?_, ?_, ?_⟩
  · rw [hadd]
    exact Cache.keys_addNew_head c k v
  · rw [hadd]
    unfold Cache.present
    rw [Cache.findValue_addNew_self c k v]
    simp
  · rw [hadd]
    exact Cache.findValue_addNew_self c k v
  · rw [hgoc]
    exact Cache.keys_addNew_head c k (f k)
  · rw [hgoc]
    unfold Cache.present
    rw [Cache.findValue_addNew_self c k (f k)]
    simp

/-- Witness for C9 at concrete inputs: a full capacity-1 cache and the
fresh key 2, so its own insertion triggers an actual eviction. -/
theorem c9_fresh_entry_survives_trim_witness :
    (Cache.keys (Cache.add (⟨1, [(1, 7)]⟩ : Cache Nat Nat) 2 9)).head? = some 2
  ∧ Cache.present (Cache.add (⟨1, [(1, 7)]⟩ : Cache Nat Nat) 2 9) 2
  ∧ Cache.findValue (Cache.add (⟨1, [(1, 7)]⟩ : Cache Nat Nat) 2 9) 2 = some 9
  ∧ (Cache.keys (Cache.getOrComputePure (⟨1, [(1, 7)]⟩ : Cache Nat Nat) 2 (fun x => x + 100)).2).head? = some 2
  ∧ Cache.present (Cache.getOrComputePure (⟨1, [(1, 7)]⟩ : Cache Nat Nat) 2 (fun x => x + 100)).2 2 :=
  c9_fresh_entry_survives_trim (⟨1, [(1, 7)]⟩ : Cache Nat Nat) 2 9 (fun x => x + 100)
    (by decide) (by decide)

/-- Claim C10: promotion is idempotent.  For a key `k` present in `c`, the
cache state after performing a promoting access (`contains`, `get`, strict
`lookup`, or get-or-compute) twice in succession equals the state after
performing it once; and promoting a key already at the head (`ch`/`kh`
scenario) leaves the cache — in particular `keys` — unchanged. -/
theorem c10_promotion_idempotent {Key Value : Type} [DecidableEq Key]
    (c : Cache Key Value) (k : Key) (v : Value) (f : Key → Value)
    (ch : Cache Key Value) (kh : Key)
    (hpres : Cache.findValue c k = some v)
    (hhead : (Cache.keys ch).head? = some kh) :
    (Cache.contains (Cache.contains c k).2 k).2 = (Cache.contains c k).2
  ∧ (Cache.get (Cache.get c k).2 k).2 = (Cache.get c k).2
  ∧ (Cache.lookup (Cache.lookup c k).2 k).2 = (Cache.lookup c k).2
  ∧ (Cache.getOrComputePure (Cache.getOrComputePure c k f).2 k f).2
      = (Cache.getOrComputePure c k f).2
  ∧ (Cache.contains ch kh).2 = ch
  ∧ Cache.keys (Cache.contains ch kh).2 = Cache.keys ch := by
  have hidem := Cache.lookupImpl_idem c k
  have hnoop : (Cache.lookupImpl ch kh).2 = ch := Cache.lookupImpl_head_noop ch kh hhead
  have hval : Cache.findValue (Cache.lookupImpl c k).2 k = some v :=
    Cache.findValue_lookupImpl_snd c k v hpres
  refine ⟨?_, ?_, ?_, ?_, hnoop, ?_⟩
  · show (Cache.lookupImpl (Cache.lookupImpl c k).2 k).2 = (Cache.lookupImpl c k).2
    rw [hidem]
  · show (Cache.lookupImpl (Cache.lookupImpl c k).2 k).2 = (Cache.lookupImpl c k).2
    rw [hidem]
  · rw [Cache.lookup_snd, Cache.lookup_snd, hidem]
  · rw [Cache.getOrComputePure_of_some c k f v hpres]
    simp only
    rw [Cache.getOrComputePure_of_some _ k f v hval]
    simp only
    rw [hidem]
  · show Cache.keys (Cache.lookupImpl ch kh).2 = Cache.keys ch
    rw [hnoop]

/-- Witness for C10 at concrete inputs: key 6 present (but not at the head)
of a two-entry cache, and key 5 at the head of the same cache. -/
theorem c10_promotion_idempotent_witness :
    (Cache.contains (Cache.contains (⟨2, [(5, 0), (6, 1)]⟩ : Cache Nat Nat) 6).2 6).2
      = (Cache.contains (⟨2, [(5, 0), (6, 1)]⟩ : Cache Nat Nat) 6).2
  ∧ (Cache.get (Cache.get (⟨2, [(5, 0), (6, 1)]⟩ : Cache Nat Nat) 6).2 6).2
      = (Cache.get (⟨2, [(5, 0), (6, 1)]⟩ : Cache Nat Nat) 6).2
  ∧ (Cache.lookup (Cache.lookup (⟨2, [(5, 0), (6, 1)]⟩ : Cache Nat Nat) 6).2 6).2
      = (Cache.lookup (⟨2, [(5, 0), (6, 1)]⟩ : Cache Nat Nat) 6).2
  ∧ (Cache.getOrComputePure (Cache.getOrComputePure (⟨2, [(5, 0), (6, 1)]⟩ : Cache Nat Nat) 6 (fun x => x)).2 6 (fun x => x)).2
      = (Cache.getOrComputePure (⟨2, [(5, 0), (6, 1)]⟩ : Cache Nat Nat) 6 (fun x => x)).2
  ∧ (Cache.contains (⟨2, [(5, 0), (6, 1)]⟩ : Cache Nat Nat) 5).2 = (⟨2, [(5, 0), (6, 1)]⟩ : Cache Nat Nat)
  ∧ Cache.keys (Cache.contains (⟨2, [(5, 0), (6, 1)]⟩ : Cache Nat Nat) 5).2
      = Cache.keys (⟨2, [(5, 0), (6, 1)]⟩ : Cache Nat Nat) :=
  c10_promotion_idempotent (⟨2, [(5, 0), (6, 1)]⟩ : Cache Nat Nat) 6 1 (fun x => x)
    (⟨2, [(5, 0), (6, 1)]⟩ : Cache Nat Nat) 5 (by decide) (by decide)

/-- Claim C1: capacity bound and unbounded mode.  For any sequence of
`add`/get-or-compute calls from a cache state satisfying the size
invariant (which every reachable state does: the constructor starts empty
and, as shown here, every call preserves it), after each call — i.e. after
every prefix of the sequence — the capacity is unchanged and, if positive,
`size ≤ capacity`.  With capacity 0 (`cu` scenario) no eviction ever
occurs: adding `N` distinct fresh keys leaves `size` grown by exactly `N`. -/
theorem c1_capacity_bound_and_unbounded {Key Value : Type} [DecidableEq Key]
    (c cu : Cache Key Value) (ops : List (Cache.CacheOp Key Value)) (i : Nat)
    (f : Key → Value) (ks : List Key)
    (hinv : 0 < Cache.capacity c → Cache.size c ≤ Cache.capacity c)
    (hcap : Cache.capacity cu = 0) (hnd : ks.Nodup)
    (hfresh : ∀ k ∈ ks, Cache.findValue cu k = none) :
    (Cache.capacity (Cache.execOps c (ops.take i)) = Cache.capacity c
      ∧ (0 < Cache.capacity c → Cache.size (Cache.execOps c (ops.take i)) ≤ Cache.capacity c))
  ∧ (Cache.capacity (Cache.addAll cu f ks) = 0
      ∧ Cache.size (Cache.addAll cu f ks) = Cache.size cu + ks.length) := by
  refine ⟨⟨?_, ?_⟩, ?_, ?_⟩
  · show (Cache.execOps c (ops.take i)).maxElements = c.maxElements
    exact Cache.execOps_maxElements (ops.take i) c
  · intro hpos
    have h0 : c.maxElements ≠ 0 := by
      unfold Cache.capacity at hpos
      omega
    exact Cache.size_execOps_le (ops.take i) c h0 (hinv hpos)
  · show (Cache.addAll cu f ks).maxElements = 0
    rw [Cache.addAll_maxElements]
    exact hcap
  · exact Cache.size_addAll ks cu f hcap hnd hfresh

/-- Witness for C1 at concrete inputs: three calls (two adds and one
get-or-compute) on an initially empty capacity-1 cache, checked after the
prefix of length 2, and three distinct keys added to an empty unbounded
cache. -/
theorem c1_capacity_bound_and_unbounded_witness :
    (Cache.capacity (Cache.execOps (Cache.mkCache 1 : Cache Nat Nat)
        ([Cache.CacheOp.add 0 5, Cache.CacheOp.add 1 6,
          Cache.CacheOp.getOrCompute 2 (fun x => x)].take 2)) = Cache.capacity (Cache.mkCache 1 : Cache Nat Nat)
      ∧ (0 < Cache.capacity (Cache.mkCache 1 : Cache Nat Nat) →
          Cache.size (Cache.execOps (Cache.mkCache 1 : Cache Nat Nat)
            ([Cache.CacheOp.add 0 5, Cache.CacheOp.add 1 6,
              Cache.CacheOp.getOrCompute 2 (fun x => x)].take 2))
            ≤ Cache.capacity (Cache.mkCache 1 : Cache Nat Nat)))
  ∧ (Cache.capacity (Cache.addAll (Cache.mkCache 0 : Cache Nat Nat) (fun k => k + 100) [3, 4, 5]) = 0
      ∧ Cache.size (Cache.addAll (Cache.mkCache 0 : Cache Nat Nat) (fun k => k + 100) [3, 4, 5])
          = Cache.size (Cache.mkCache 0 : Cache Nat Nat) + [3, 4, 5].length) :=
  c1_capacity_bound_and_unbounded (Cache.mkCache 1) (Cache.mkCache 0)
    [Cache.CacheOp.add 0 5, Cache.CacheOp.add 1 6, Cache.CacheOp.getOrCompute 2 (fun x => x)]
    2 (fun k => k + 100) [3, 4, 5]
    (by decide) (by decide) (by decide) (by decide)

/-- Claim C2: semantics of get-or-compute (`operator()`).  On a present key
(`ch` scenario) it returns the cached value with the generator's effect
state untouched (the generator is not invoked).  On a miss (`cm`) it runs
the generator once and, when that returns, inserts the result as a new
head entry (`addNew` = emplace front then trim) and returns it.  When the
generator throws (`ce`) the failure propagates and the cache is returned
exactly as it was — no entry added.  With a counting generator on a fresh
key (`cc`), two successive calls yield the generated value both times while
the invocation counter ends at 1: the second call hits the cache and does
not invoke the generator. -/
theorem c2_getOrCompute_fires_once {Key Value σ ε : Type} [DecidableEq Key]
    (ch : Cache Key Value) (kh : Key) (vh : Value)
    (funch : Key → σ → Except ε Value × σ) (sh : σ)
    (cm : Cache Key Value) (km : Key) (vm : Value)
    (funcm : Key → σ → Except ε Value × σ) (sm sm' : σ)
    (ce : Cache Key Value) (ke : Key) (err : ε)
    (funce : Key → σ → Except ε Value × σ) (se se' : σ)
    (cc : Cache Key Value) (kc : Key) (fc : Key → Value)
    (hhit : Cache.findValue ch kh = some vh)
    (hmiss : Cache.findValue cm km = none)
    (hok : funcm km sm = (Except.ok vm, sm'))
    (hmisse : Cache.findValue ce ke = none)
    (herr : funce ke se = (Except.error err, se'))
    (hmissc : Cache.findValue cc kc = none) :
    Cache.getOrCompute ch kh funch sh = (Except.ok vh, (Cache.lookupImpl ch kh).2, sh)
  ∧ Cache.getOrCompute cm km funcm sm = (Except.ok vm, Cache.addNew cm km vm, sm')
  ∧ (Cache.keys (Cache.addNew cm km vm)).head? = some km
  ∧ Cache.getOrCompute ce ke funce se = (Except.error err, ce, se')
  ∧ Cache.getOrCompute cc kc (Cache.countGen fc) 0 = (Except.ok (fc kc), Cache.addNew cc kc (fc kc), 1)
  ∧ Cache.getOrCompute (Cache.getOrCompute cc kc (Cache.countGen fc) 0).2.1 kc
        (Cache.countGen fc) (Cache.getOrCompute cc kc (Cache.countGen fc) 0).2.2
      = (Except.ok (fc kc),
         (Cache.lookupImpl (Cache.getOrCompute cc kc (Cache.countGen fc) 0).2.1 kc).2, 1) := by
  have hr1 : Cache.getOrCompute cc kc (Cache.countGen fc) 0
      = (Except.ok (fc kc), Cache.addNew cc kc (fc kc), 1) := by
    unfold Cache.getOrCompute
    rw [Cache.lookupImpl_of_none cc kc hmissc]
    rfl
  refine ⟨?_, ?_, Cache.keys_addNew_head cm km vm, ?_, hr1, ?_⟩
  · unfold Cache.getOrCompute
    rw [Cache.lookupImpl_fst, hhit]
  · unfold Cache.getOrCompute
    rw [Cache.lookupImpl_of_none cm km hmiss, hok]
  · unfold Cache.getOrCompute
    rw [Cache.lookupImpl_of_none ce ke hmisse, herr]
  · rw [hr1]
    simp only
    unfold Cache.getOrCompute
    rw [Cache.lookupImpl_fst, Cache.findValue_addNew_self cc kc (fc kc)]

/-- Witness for C2 at concrete inputs: a hit on key 1, a miss on key 3 with
a generator returning 30, a miss on key 4 with a throwing generator, and a
counting generator on the fresh key 5 of an empty cache. -/
theorem c2_getOrCompute_fires_once_witness :
    Cache.getOrCompute (⟨2, [(1, 7)]⟩ : Cache Nat Nat) 1 (fun k s => ((Except.ok (k + 1) : Except Nat Nat), s + 1)) 0
      = (Except.ok 7, (Cache.lookupImpl (⟨2, [(1, 7)]⟩ : Cache Nat Nat) 1).2, 0)
  ∧ Cache.getOrCompute (⟨2, [(1, 7)]⟩ : Cache Nat Nat) 3 (fun k s => ((Except.ok (k * 10) : Except Nat Nat), s + 1)) 0
      = (Except.ok 30, Cache.addNew (⟨2, [(1, 7)]⟩ : Cache Nat Nat) 3 30, 1)
  ∧ (Cache.keys (Cache.addNew (⟨2, [(1, 7)]⟩ : Cache Nat Nat) 3 30)).head? = some 3
  ∧ Cache.getOrCompute (⟨2, [(1, 7)]⟩ : Cache Nat Nat) 4
        (fun k s => ((Except.error 99 : Except Nat Nat), s + 1)) 0
      = (Except.error 99, (⟨2, [(1, 7)]⟩ : Cache Nat Nat), 1)
  ∧ Cache.getOrCompute (Cache.mkCache 2 : Cache Nat Nat) 5 (Cache.countGen (fun k => k * 2)) 0
      = (Except.ok 10, Cache.addNew (Cache.mkCache 2) 5 10, 1)
  ∧ Cache.getOrCompute (Cache.getOrCompute (Cache.mkCache 2 : Cache Nat Nat) 5 (Cache.countGen (fun k => k * 2)) 0).2.1 5
        (Cache.countGen (fun k => k * 2)) (Cache.getOrCompute (Cache.mkCache 2 : Cache Nat Nat) 5 (Cache.countGen (fun k => k * 2)) 0).2.2
      = (Except.ok 10,
         (Cache.lookupImpl (Cache.getOrCompute (Cache.mkCache 2 : Cache Nat Nat) 5 (Cache.countGen (fun k => k * 2)) 0).2.1 5).2, 1) :=
  c2_getOrCompute_fires_once
    (⟨2, [(1, 7)]⟩ : Cache Nat Nat) 1 7 (fun k s => ((Except.ok (k + 1) : Except Nat Nat), s + 1)) 0
    (⟨2, [(1, 7)]⟩ : Cache Nat Nat) 3 30 (fun k s => ((Except.ok (k * 10) : Except Nat Nat), s + 1)) 0 1
    (⟨2, [(1, 7)]⟩ : Cache Nat Nat) 4 99 (fun k s => (Except.error 99, s + 1)) 0 1
    (Cache.mkCache 2 : Cache Nat Nat) 5 (fun k => k * 2)
    (by decide) (by decide) (by rfl) (by decide) (by rfl) (by decide)
